import Mathlib

/-!
# Search and pagination of the movie browser (`src/js/api/searchServices.js`)

A shallow embedding of `searchData`, `search`, `displaySearchResults` and
`displayPagination`, together with the two click listeners that
`displayPagination` attaches, followed by theorems about them.

Modelling conventions

* `global.search` is the record `SearchState`; numbers are `Int`, which is exact
  for the page numbers and counts of a JSON response (integers far below 2^53).
* The host page is the record `Dom`: the children of `#search-results`, the
  `innerHTML` of `#search-results-heading`, the children of `#pagination` and the
  value of the input `#search-term`.  An `innerHTML` is kept as the string that
  was assigned to it.
* `getData` is not part of this file of the repository; every function that
  fetches takes it as a parameter `String → Option Response`, where `none` is a
  rejected promise.  Every call is recorded in `World.fetched`.
* `smoothscroll` is external as well; its calls are counted in `World.scrolls`.
* An `async` function returns a `Completion` next to the new world.
-/

namespace SearchServices

/-! ## JavaScript values that are interpolated into templates -/

/-- The JavaScript values that occur in the fields of a result item. -/
inductive JsVal where
  | undefined : JsVal
  | null : JsVal
  | str (s : String) : JsVal
  | num (n : Int) : JsVal
  deriving DecidableEq, Repr

/-- String conversion as performed by a template literal. -/
def JsVal.toStr : JsVal → String
  | .undefined => "undefined"
  | .null => "null"
  | .str s => s
  | .num n => toString n

/-- Truthiness as tested by `?:` and `||`. -/
def JsVal.truthy : JsVal → Bool
  | .undefined => false
  | .null => false
  | .str s => s != ""
  | .num n => n != 0

/-- Template conversion of a value that is a string or `null`
(`URLSearchParams.get` returns one of the two). -/
def strOrNull : Option String → String
  | none => "null"
  | some s => s

/-! ## Data model -/

/-- The record `global.search`. -/
structure SearchState where
  type : Option String
  term : Option String
  page : Int
  totalPages : Int
  totalResults : Int
  maxCountResults : Int
  deriving DecidableEq, Repr

/-- One element of the `results` array.  `rating` is the text that
`result?.vote_average?.toFixed(1)` contributes to the template. -/
structure ResultItem where
  id : JsVal
  poster_path : JsVal
  title : JsVal
  name : JsVal
  rating : String
  deriving DecidableEq, Repr

/-- The JSON body of a search response. -/
structure Response where
  results : List ResultItem
  page : Int
  total_pages : Int
  total_results : Int
  deriving DecidableEq, Repr

/-- A `div.pagination` child of `#pagination`: its `innerHTML` and the
`disabled` property of the two buttons it holds. -/
structure PagDiv where
  html : String
  prevDisabled : Bool
  nextDisabled : Bool
  deriving DecidableEq, Repr

/-- The part of the document the module touches. -/
structure Dom where
  searchResults : List String
  heading : String
  pagination : List PagDiv
  searchTermValue : String
  deriving DecidableEq, Repr

/-- Program state plus the observable effects. -/
structure World where
  search : SearchState
  dom : Dom
  fetched : List String
  console : List String
  scrolls : Nat
  deriving DecidableEq, Repr

/-- How an `async` function settles. -/
inductive Completion where
  | fulfilled : Completion
  | rejected : Completion
  deriving DecidableEq, Repr

/-! ## `searchData` -/

/-- The template literal of `searchData`. -/
def endpoint (s : SearchState) : String :=
  "search/" ++ strOrNull s.type ++ "?query=" ++ strOrNull s.term ++ "&page=" ++ toString s.page

/-- The imported `getData`, applied to the world: the call is logged and the
answer of the server is handed back. -/
def callGetData (getData : String → Option Response) (ep : String) (w : World) :
    Option Response × World :=
  (getData ep, { w with fetched := w.fetched ++ [ep] })

/-- `searchData`: build the endpoint from `global.search` and return `getData(endpoint)`. -/
def searchData (getData : String → Option Response) (w : World) : Option Response × World :=
  callGetData getData (endpoint w.search) w

/-! ## `displayPagination` -/

/-- The `innerHTML` of the pagination block. -/
def paginationHtml (s : SearchState) : String :=
  "\n      <div>\n        <button class=\"btn btn-outline\" id=\"prev\">Prev</button>\n        <button class=\"btn btn-outline\" id=\"next\">Next</button>\n      </div>\n      <div class=\"page-counter\">Page "
    ++ toString s.page ++ " of " ++ toString s.totalPages ++ "</div>\n    "

/-- Apply `f` to the first element of a list: the element that
`document.querySelector` picks among the blocks inside `#pagination`. -/
def onFirst (f : PagDiv → PagDiv) : List PagDiv → List PagDiv
  | [] => []
  | p :: ps => f p :: ps

/-- `displayPagination`: append a fresh block, then disable `#prev` when
`page === 1` and `#next` when `page === totalPages`.  The two listeners are the
functions `nextHandler` and `prevHandler` below. -/
def displayPagination (w : World) : World :=
  let div : PagDiv := { html := paginationHtml w.search, prevDisabled := false, nextDisabled := false }
  let ps := w.dom.pagination ++ [div]
  let ps := if w.search.page = 1 then onFirst (fun p => { p with prevDisabled := true }) ps else ps
  let ps := if w.search.page = w.search.totalPages then
      onFirst (fun p => { p with nextDisabled := true }) ps else ps
  { w with dom := { w.dom with pagination := ps } }

/-! ## `displaySearchResults` -/

/-- The poster part of a card: image tag for a truthy `poster_path`, else the placeholder. -/
def posterHtml (r : ResultItem) : String :=
  if r.poster_path.truthy then
    "<img src=\"https://image.tmdb.org/t/p/w500" ++ r.poster_path.toStr ++ "\" alt=\""
      ++ r.title.toStr ++ "\"/>"
  else
    "<div class=\"no-img\"></div>"

/-- The expression `result?.title || result?.name`. -/
def titleOrName (r : ResultItem) : JsVal :=
  if r.title.truthy then r.title else r.name

/-- Constant text between the poster and the rating. -/
def ratingOpen : String :=
  "\n      <h3 class=\"list-item-rating\">\n            <svg width=\"16\" height=\"16\" viewBox=\"0 0 16 16\" fill=\"none\" xmlns=\"http://www.w3.org/2000/svg\">\n              <path d=\"M9.15336 2.33977L10.3267 4.68643C10.4867 5.0131 10.9134 5.32643 11.2734 5.38643L13.4 5.73977C14.76 5.96643 15.08 6.9531 14.1 7.92643L12.4467 9.57977C12.1667 9.85977 12.0134 10.3998 12.1 10.7864L12.5734 12.8331C12.9467 14.4531 12.0867 15.0798 10.6534 14.2331L8.66003 13.0531C8.30003 12.8398 7.7067 12.8398 7.34003 13.0531L5.3467 14.2331C3.92003 15.0798 3.05336 14.4464 3.4267 12.8331L3.90003 10.7864C3.9867 10.3998 3.83336 9.85977 3.55336 9.57977L1.90003 7.92643C0.926698 6.9531 1.24003 5.96643 2.60003 5.73977L4.7267 5.38643C5.08003 5.32643 5.5067 5.0131 5.6667 4.68643L6.84003 2.33977C7.48003 1.06643 8.52003 1.06643 9.15336 2.33977Z\" stroke=\"#FFAD49\" stroke-width=\"1.5\" stroke-linecap=\"round\" stroke-linejoin=\"round\"/>\n            </svg>\n            "

/-- Constant text between the rating and the title. -/
def titleOpen : String :=
  " / 10\n          </h3>\n        <div class=\"list-item-descr\">\n          <h3 class=\"list-item-title\">"

/-- The `innerHTML` of one card. -/
def cardHtml (s : SearchState) (r : ResultItem) : String :=
  "\n      <a href=\"" ++ strOrNull s.type ++ "-details.html?id=" ++ r.id.toStr ++ "\">\n        "
    ++ posterHtml r ++ ratingOpen ++ r.rating ++ titleOpen ++ (titleOrName r).toStr
    ++ "</h3>\n        </div>\n      </a>\n    "

/-- The number in front of `of` in the heading. -/
def shownCount (s : SearchState) (n : Nat) : Int :=
  if s.totalPages > 1 then s.maxCountResults * (s.page - 1) + (n : Int) else (n : Int)

/-- The `innerHTML` written to `#search-results-heading`. -/
def headingHtml (s : SearchState) (n : Nat) : String :=
  "\n        <h2>" ++ toString (shownCount s n) ++ " of " ++ toString s.totalResults
    ++ " Results for \"" ++ strOrNull s.term ++ "\"</h2>"

/-- The body of the `forEach` callback: write the heading, append the card. -/
def renderOne (s : SearchState) (n : Nat) (d : Dom) (r : ResultItem) : Dom :=
  { d with heading := headingHtml s n, searchResults := d.searchResults ++ [cardHtml s r] }

/-- `displaySearchResults`: empty the three regions, render every result, then
call `displayPagination`. -/
def displaySearchResults (results : List ResultItem) (w : World) : World :=
  let d0 : Dom := { w.dom with searchResults := [], heading := "", pagination := [] }
  let d1 := results.foldl (renderOne w.search results.length) d0
  displayPagination { w with dom := d1 }

/-! ## `URLSearchParams`

The browser class is not code of the repository.  It is written down here after
the URL standard (the `application/x-www-form-urlencoded` parser): the input is
UTF-8 encoded, split at `&`, every non-empty piece is split at its first `=`,
`+` becomes a space, percent escapes are decoded and the bytes are UTF-8 decoded
with U+FFFD for malformed sequences. -/

/-- UTF-8 encoding of one scalar value. -/
def utf8Encode (c : Nat) : List Nat :=
  if c < 0x80 then [c]
  else if c < 0x800 then [0xC0 + c / 64, 0x80 + c % 64]
  else if c < 0x10000 then [0xE0 + c / 4096, 0x80 + c / 64 % 64, 0x80 + c % 64]
  else [0xF0 + c / 262144, 0x80 + c / 4096 % 64, 0x80 + c / 64 % 64, 0x80 + c % 64]

/-- UTF-8 encoding of a list of characters. -/
def utf8EncodeAll : List Char → List Nat
  | [] => []
  | c :: cs => utf8Encode c.toNat ++ utf8EncodeAll cs

/-- State of the UTF-8 decoder of the Encoding standard. -/
structure Utf8State where
  cp : Nat
  needed : Nat
  seen : Nat
  lower : Nat
  upper : Nat
  deriving DecidableEq, Repr

/-- The decoder between two characters. -/
def Utf8State.init : Utf8State :=
  { cp := 0, needed := 0, seen := 0, lower := 0x80, upper := 0xBF }

/-- The replacement character U+FFFD. -/
def replacementChar : Char := Char.ofNat 0xFFFD

/-- The decoder reading a byte while no sequence is open. -/
def utf8Start (b : Nat) : List Char × Utf8State :=
  if b ≤ 0x7F then ([Char.ofNat b], Utf8State.init)
  else if 0xC2 ≤ b ∧ b ≤ 0xDF then
    ([], { cp := b % 32, needed := 1, seen := 0, lower := 0x80, upper := 0xBF })
  else if 0xE0 ≤ b ∧ b ≤ 0xEF then
    ([], { cp := b % 16, needed := 2, seen := 0,
           lower := if b = 0xE0 then 0xA0 else 0x80,
           upper := if b = 0xED then 0x9F else 0xBF })
  else if 0xF0 ≤ b ∧ b ≤ 0xF4 then
    ([], { cp := b % 8, needed := 3, seen := 0,
           lower := if b = 0xF0 then 0x90 else 0x80,
           upper := if b = 0xF4 then 0x8F else 0xBF })
  else ([replacementChar], Utf8State.init)

/-- One byte through the decoder: the characters emitted and the next state.  A
byte that cannot continue the open sequence yields U+FFFD and is read again
from the initial state. -/
def utf8Step (st : Utf8State) (b : Nat) : List Char × Utf8State :=
  if st.needed = 0 then utf8Start b
  else if b < st.lower ∨ st.upper < b then
    (replacementChar :: (utf8Start b).1, (utf8Start b).2)
  else if st.seen + 1 = st.needed then
    ([Char.ofNat (st.cp * 64 + b % 64)], Utf8State.init)
  else
    ([], { cp := st.cp * 64 + b % 64, needed := st.needed, seen := st.seen + 1,
           lower := 0x80, upper := 0xBF })

/-- UTF-8 decode without BOM, from a decoder state. -/
def utf8DecodeFrom (st : Utf8State) : List Nat → List Char
  | [] => if st.needed = 0 then [] else [replacementChar]
  | b :: bs => (utf8Step st b).1 ++ utf8DecodeFrom (utf8Step st b).2 bs

/-- UTF-8 decode without BOM. -/
def utf8Decode (bs : List Nat) : List Char :=
  utf8DecodeFrom Utf8State.init bs

/-- Value of an ASCII hex digit. -/
def hexVal (b : Nat) : Option Nat :=
  if 0x30 ≤ b ∧ b ≤ 0x39 then some (b - 0x30)
  else if 0x41 ≤ b ∧ b ≤ 0x46 then some (b - 0x41 + 10)
  else if 0x61 ≤ b ∧ b ≤ 0x66 then some (b - 0x61 + 10)
  else none

/-- Percent-decode a byte sequence: `%` followed by two hex digits becomes the
byte they denote, every other byte is kept. -/
def percentDecode : List Nat → List Nat
  | [] => []
  | [b] => [b]
  | [b, c] => [b, c]
  | b :: h :: l :: rest =>
    if b = 0x25 then
      match hexVal h, hexVal l with
      | some x, some y => (x * 16 + y) :: percentDecode rest
      | _, _ => b :: percentDecode (h :: l :: rest)
    else b :: percentDecode (h :: l :: rest)

/-- Split a byte sequence at every occurrence of `sep`. -/
def splitBytes (sep : Nat) : List Nat → List (List Nat)
  | [] => [[]]
  | b :: bs =>
    if b = sep then [] :: splitBytes sep bs
    else
      match splitBytes sep bs with
      | [] => [[b]]
      | x :: xs => (b :: x) :: xs

/-- Split at the first `=`: the name and, when there is a `=`, what follows it. -/
def splitNameValue : List Nat → List Nat × List Nat
  | [] => ([], [])
  | b :: bs =>
    if b = 0x3D then ([], bs)
    else ((b :: (splitNameValue bs).1), (splitNameValue bs).2)

/-- Decode a name or a value: `+` to space, percent-decode, UTF-8 decode. -/
def decodeField (bs : List Nat) : String :=
  String.mk (utf8Decode (percentDecode (bs.map (fun b => if b = 0x2B then 0x20 else b))))

/-- The `application/x-www-form-urlencoded` parser on bytes. -/
def parseUrlencoded (bs : List Nat) : List (String × String) :=
  ((splitBytes 0x26 bs).filter (fun piece => !piece.isEmpty)).map
    (fun piece => (decodeField (splitNameValue piece).1, decodeField (splitNameValue piece).2))

/-- The constructor `new URLSearchParams(init)` for a string: a leading `?` is dropped. -/
def URLSearchParams (init : String) : List (String × String) :=
  match init.toList with
  | '?' :: rest => parseUrlencoded (utf8EncodeAll rest)
  | cs => parseUrlencoded (utf8EncodeAll cs)

/-- The method `get`: value of the first pair with that name, else `null`. -/
def URLSearchParams.get (params : List (String × String)) (name : String) : Option String :=
  (params.find? (fun p => p.1 == name)).map (fun p => p.2)

/-! ## The click listeners -/

/-- The imported `smoothscroll`. -/
def smoothscroll (w : World) : World :=
  { w with scrolls := w.scrolls + 1 }

/-- The listener on `#next`. -/
def nextHandler (getData : String → Option Response) (w : World) : Completion × World :=
  let w1 := { w with search := { w.search with page := w.search.page + 1 } }
  match searchData getData w1 with
  | (none, w2) => (.rejected, w2)
  | (some resp, w2) => (.fulfilled, smoothscroll (displaySearchResults resp.results w2))

/-- The listener on `#prev`. -/
def prevHandler (getData : String → Option Response) (w : World) : Completion × World :=
  let w1 := { w with search := { w.search with page := w.search.page - 1 } }
  match searchData getData w1 with
  | (none, w2) => (.rejected, w2)
  | (some resp, w2) => (.fulfilled, smoothscroll (displaySearchResults resp.results w2))

/-! ## `search` -/

/-- The first step of `search`: log the query string and copy the parameters
`type` and `search-term` into `global.search`. -/
def extractQuery (queryString : String) (w : World) : World :=
  let w := { w with console := w.console ++ [queryString] }
  let urlParams := URLSearchParams queryString
  let w := { w with search := { w.search with type := URLSearchParams.get urlParams "type" } }
  { w with search := { w.search with term := URLSearchParams.get urlParams "search-term" } }

/-- Lines 36 to 38 of `search`: copy `page`, `total_pages` and `total_results`
of the response into `global.search`. -/
def storeResponse (resp : Response) (w : World) : World :=
  let w := { w with search := { w.search with page := resp.page } }
  let w := { w with search := { w.search with totalPages := resp.total_pages } }
  { w with search := { w.search with totalResults := resp.total_results } }

/-- The flow `search`, run on the query string `window.location.search`. -/
def search (getData : String → Option Response) (queryString : String) (w : World) :
    Completion × World :=
  let w := extractQuery queryString w
  if w.search.term ≠ some "" ∧ w.search.term ≠ none then
    match searchData getData w with
    | (none, w) => (.rejected, w)
    | (some resp, w) =>
      let w := storeResponse resp w
      if resp.results.length = 0 then
        (.fulfilled, { w with console := w.console ++ ["No result"] })
      else
        let w := displaySearchResults resp.results w
        (.fulfilled, { w with dom := { w.dom with searchTermValue := "" } })
  else
    (.fulfilled, { w with console := w.console ++ ["Please enter search term!"] })

/-! ## Clicks

A click reaches a listener only through a button that is in the document and
not disabled.  `displaySearchResults` empties `#pagination` before it renders,
so the buttons of an earlier rendering are gone and every block in the
container carries exactly the listeners attached when it was rendered. -/

/-- A click on the Next or Prev button of the block at position `i` of
`#pagination`, with the behaviour of the server at that moment. -/
inductive Click where
  | next (i : Nat) (getData : String → Option Response) : Click
  | prev (i : Nat) (getData : String → Option Response) : Click

/-- A click handled to completion: a button that is missing or disabled starts
no listener (this counts as fulfilled), any other button runs its listener. -/
def dispatchClick (w : World) : Click → Completion × World
  | .next i getData =>
    match w.dom.pagination.get? i with
    | some p => if p.nextDisabled then (.fulfilled, w) else nextHandler getData w
    | none => (.fulfilled, w)
  | .prev i getData =>
    match w.dom.pagination.get? i with
    | some p => if p.prevDisabled then (.fulfilled, w) else prevHandler getData w
    | none => (.fulfilled, w)

/-- The world after a click has been handled to completion. -/
def click (w : World) (c : Click) : World :=
  (dispatchClick w c).2

/-- The world after a sequence of clicks, each handled to completion. -/
def clicks (w : World) (cs : List Click) : World :=
  cs.foldl click w

/-- The way the listener started by a click settles. -/
def clickCompletion (w : World) (c : Click) : Completion :=
  (dispatchClick w c).1

/-- Every listener started by the clicks `cs`, run one after the other from `w`,
is fulfilled. -/
def allFulfilled : World → List Click → Prop
  | _, [] => True
  | w, c :: cs => clickCompletion w c = .fulfilled ∧ allFulfilled (click w c) cs

/-- The invariant of the data model: `page` lies in `[1, totalPages]`. -/
def PageInRange (w : World) : Prop :=
  1 ≤ w.search.page ∧ w.search.page ≤ w.search.totalPages

/-- Every enabled button in the document leads to a page inside the range. -/
def ControlsGuarded (w : World) : Prop :=
  ∀ p ∈ w.dom.pagination,
    (p.nextDisabled = false → w.search.page < w.search.totalPages) ∧
    (p.prevDisabled = false → 1 < w.search.page)

/-! ## Reading the markup of a card -/

/-- The text `needle` occurs in the text `hay`. -/
def occursIn (needle hay : String) : Prop :=
  needle.toList <:+: hay.toList

/-- The text contributes no tag: it holds no `<`. -/
def markupFree (s : String) : Prop :=
  '<' ∉ s.toList

/-- Every value interpolated into a card is free of markup. -/
def plainFields (s : SearchState) (r : ResultItem) : Prop :=
  markupFree (strOrNull s.type) ∧ markupFree r.id.toStr ∧ markupFree r.poster_path.toStr ∧
  markupFree r.title.toStr ∧ markupFree r.name.toStr ∧ markupFree r.rating

/-- The needle differs from the text at a position both have: it is not a
prefix of the text, however the text goes on. -/
def clash : List Char → List Char → Bool
  | [], _ => false
  | _ :: _, [] => false
  | a :: as, b :: bs => a != b || clash as bs

/-- The needle clashes with the text at every position of the text. -/
def blocked (needle : List Char) : List Char → Bool
  | [] => true
  | b :: bs => clash needle (b :: bs) && blocked needle bs

/-- The placeholder block of a card without poster. -/
def placeholderHtml : String := "<div class=\"no-img\"></div>"

/-! ## Sample inputs -/

/-- A result item with a poster. -/
def sampleItem : ResultItem :=
  { id := .num 550, poster_path := .str "/p.jpg", title := .str "Heat", name := .undefined,
    rating := "8.3" }

/-- A result item whose `poster_path` is the empty string. -/
def emptyPosterItem : ResultItem :=
  { id := .num 551, poster_path := .str "", title := .str "Ronin", name := .undefined,
    rating := "7.2" }

/-- A result item without poster whose title holds markup. -/
def markupTitleItem : ResultItem :=
  { id := .num 552, poster_path := .null, title := .str "<img src=x>", name := .undefined,
    rating := "5.0" }

/-- The world at page load: default state, empty regions, text typed in the input. -/
def sampleWorld : World :=
  { search := { type := some "", term := some "", page := 1, totalPages := 1, totalResults := 0,
                maxCountResults := 20 },
    dom := { searchResults := [], heading := "", pagination := [], searchTermValue := "heat" },
    fetched := [], console := [], scrolls := 0 }

/-- A server that answers every request with the first of two pages. -/
def firstOfTwo : String → Option Response :=
  fun _ => some { results := [sampleItem], page := 1, total_pages := 2, total_results := 21 }

/-- A server whose request fails. -/
def offline : String → Option Response :=
  fun _ => none

/-- A server that answers with an empty page and other totals. -/
def emptyPage : String → Option Response :=
  fun _ => some { results := [], page := 2, total_pages := 5, total_results := 90 }

/-- A server whose answer carries a page number beyond its page count. -/
def pastTheEnd : String → Option Response :=
  fun _ => some { results := [sampleItem], page := 3, total_pages := 2, total_results := 21 }

/-- A server that answers with a page of one result and other totals. -/
def otherTotals : String → Option Response :=
  fun _ => some { results := [sampleItem], page := 2, total_pages := 5, total_results := 90 }

/-- The world after the first page of two has been rendered by `search`. -/
def renderedWorld : World :=
  (search firstOfTwo "?type=movie&search-term=heat" sampleWorld).2

/-! ## Basic facts about the renderer -/

theorem displayPagination_search (w : World) : (displayPagination w).search = w.search := by
  simp [displayPagination]

theorem displayPagination_fetched (w : World) : (displayPagination w).fetched = w.fetched := by
  simp [displayPagination]

theorem displaySearchResults_search (results : List ResultItem) (w : World) :
    (displaySearchResults results w).search = w.search := by
  simp [displaySearchResults, displayPagination_search]

theorem foldl_renderOne_heading (s : SearchState) (n : Nat) (rs : List ResultItem) (d : Dom) :
    (rs.foldl (renderOne s n) d).heading = if rs = [] then d.heading else headingHtml s n := by
  induction rs generalizing d with
  | nil => simp
  | cons r rs ih =>
    rw [List.foldl_cons, ih]
    by_cases h : rs = [] <;> simp [h, renderOne]

theorem foldl_renderOne_searchResults (s : SearchState) (n : Nat) (rs : List ResultItem)
    (d : Dom) :
    (rs.foldl (renderOne s n) d).searchResults = d.searchResults ++ rs.map (cardHtml s) := by
  induction rs generalizing d with
  | nil => simp
  | cons r rs ih => rw [List.foldl_cons, ih]; simp [renderOne]

theorem foldl_renderOne_pagination (s : SearchState) (n : Nat) (rs : List ResultItem) (d : Dom) :
    (rs.foldl (renderOne s n) d).pagination = d.pagination := by
  induction rs generalizing d with
  | nil => simp
  | cons r rs ih => rw [List.foldl_cons, ih]; simp [renderOne]

theorem foldl_renderOne_searchTermValue (s : SearchState) (n : Nat) (rs : List ResultItem)
    (d : Dom) :
    (rs.foldl (renderOne s n) d).searchTermValue = d.searchTermValue := by
  induction rs generalizing d with
  | nil => simp
  | cons r rs ih => rw [List.foldl_cons, ih]; simp [renderOne]

/-- The pagination container after `displaySearchResults`: one block, whose
buttons are disabled according to the state. -/
theorem displaySearchResults_pagination (results : List ResultItem) (w : World) :
    (displaySearchResults results w).dom.pagination =
      [{ html := paginationHtml w.search,
         prevDisabled := decide (w.search.page = 1),
         nextDisabled := decide (w.search.page = w.search.totalPages) }] := by
  simp only [displaySearchResults, displayPagination, foldl_renderOne_pagination]
  split_ifs <;> simp_all [onFirst]

theorem displaySearchResults_heading (results : List ResultItem) (w : World) :
    (displaySearchResults results w).dom.heading =
      if results = [] then "" else headingHtml w.search results.length := by
  simp [displaySearchResults, displayPagination, foldl_renderOne_heading]

theorem displaySearchResults_cards (results : List ResultItem) (w : World) :
    (displaySearchResults results w).dom.searchResults = results.map (cardHtml w.search) := by
  simp [displaySearchResults, displayPagination, foldl_renderOne_searchResults]

theorem nextHandler_search (getData : String → Option Response) (w : World) :
    (nextHandler getData w).2.search = { w.search with page := w.search.page + 1 } := by
  unfold nextHandler
  cases h : getData (endpoint { w.search with page := w.search.page + 1 }) <;>
    simp [searchData, callGetData, h, smoothscroll, displaySearchResults_search]

theorem prevHandler_search (getData : String → Option Response) (w : World) :
    (prevHandler getData w).2.search = { w.search with page := w.search.page - 1 } := by
  unfold prevHandler
  cases h : getData (endpoint { w.search with page := w.search.page - 1 }) <;>
    simp [searchData, callGetData, h, smoothscroll, displaySearchResults_search]

/-! ## Claims -/

/-- C8: `searchData` calls `getData` exactly once, with the endpoint
`search/{type}?query={term}&page={page}` built from the state without any
escaping, and returns the answer of that call unchanged; nothing else in the
world changes. A `null` type or term is inserted as the text `null`. -/
theorem searchData_single_getData_call (getData : String → Option Response) (w : World) :
    (∀ t q : String,
      searchData getData { w with search := { w.search with type := some t, term := some q } } =
        (getData ("search/" ++ t ++ "?query=" ++ q ++ "&page=" ++ toString w.search.page),
         { w with
            search := { w.search with type := some t, term := some q },
            fetched := w.fetched ++
              ["search/" ++ t ++ "?query=" ++ q ++ "&page=" ++ toString w.search.page] })) ∧
    searchData getData w =
      (getData ("search/" ++ strOrNull w.search.type ++ "?query=" ++ strOrNull w.search.term
          ++ "&page=" ++ toString w.search.page),
       { w with fetched := w.fetched ++
          ["search/" ++ strOrNull w.search.type ++ "?query=" ++ strOrNull w.search.term
            ++ "&page=" ++ toString w.search.page] }) := by
  constructor
  · intro t q
    rfl
  · rfl

/-- C3: running the Next listener and then the Prev listener, each to
completion (fulfilled or rejected), leaves `page` at its original value. -/
theorem next_then_prev_restores_page (g1 g2 : String → Option Response) (w : World) :
    (prevHandler g2 (nextHandler g1 w).2).2.search.page = w.search.page := by
  rw [prevHandler_search, nextHandler_search]
  simp

/-- C6: for a non-empty results list the heading written by
`displaySearchResults` is `X of {totalResults} Results for "{term}"` inside an
`h2`, where `X` is `maxCountResults * (page - 1) + results.length` when
`totalPages > 1` and `results.length` otherwise; with page 2, page size 20,
two pages and five results the count is 25. -/
theorem heading_reports_running_count (w : World) (r : ResultItem) (rs : List ResultItem) :
    (displaySearchResults (r :: rs) w).dom.heading =
        "\n        <h2>" ++
          toString (if w.search.totalPages > 1
            then w.search.maxCountResults * (w.search.page - 1) + ((r :: rs).length : Int)
            else ((r :: rs).length : Int))
          ++ " of " ++ toString w.search.totalResults ++ " Results for \""
          ++ strOrNull w.search.term ++ "\"</h2>" ∧
    (∀ a b c d : ResultItem,
      (displaySearchResults [r, a, b, c, d]
          { w with search := { w.search with page := 2, maxCountResults := 20,
                                              totalPages := 2 } }).dom.heading =
        "\n        <h2>25 of " ++ toString w.search.totalResults ++ " Results for \""
          ++ strOrNull w.search.term ++ "\"</h2>") := by
  constructor
  · rw [displaySearchResults_heading]
    simp [headingHtml, shownCount]
  · intro a b c d
    rw [displaySearchResults_heading]
    simp [headingHtml, shownCount]
    rfl

/-- C2: after `displayPagination` has run (inside `displaySearchResults`, or
directly on an empty container) the container holds one block whose Prev button
is disabled exactly when `page = 1` and whose Next button is disabled exactly
when `page = totalPages`; with page 2 of 2 Next is disabled and Prev enabled,
with page 1 of 1 both are disabled. -/
theorem pagination_buttons_disabled_iff (w : World) (results : List ResultItem) :
    (∃ p, (displaySearchResults results w).dom.pagination = [p] ∧
        (p.prevDisabled = true ↔ w.search.page = 1) ∧
        (p.nextDisabled = true ↔ w.search.page = w.search.totalPages)) ∧
    (∃ p, (displayPagination { w with dom := { w.dom with pagination := [] } }).dom.pagination = [p] ∧
        (p.prevDisabled = true ↔ w.search.page = 1) ∧
        (p.nextDisabled = true ↔ w.search.page = w.search.totalPages)) ∧
    (∃ p, (displaySearchResults results
            { w with search := { w.search with page := 2, totalPages := 2 } }).dom.pagination = [p] ∧
        p.nextDisabled = true ∧ p.prevDisabled = false) ∧
    (∃ p, (displaySearchResults results
            { w with search := { w.search with page := 1, totalPages := 1 } }).dom.pagination = [p] ∧
        p.nextDisabled = true ∧ p.prevDisabled = true) := by
  refine ⟨⟨_, displaySearchResults_pagination results w, by simp, by simp⟩, ?_,
    ⟨_, displaySearchResults_pagination results _, by simp, by simp⟩,
    ⟨_, displaySearchResults_pagination results _, by simp, by simp⟩⟩
  have h := displaySearchResults_pagination [] w
  simp only [displaySearchResults, List.foldl_nil] at h
  exact ⟨_, h, by simp, by simp⟩

/-- What `search` does when the term is usable and the request is answered. -/
theorem search_answered (getData : String → Option Response) (queryString : String) (w : World)
    (t : String) (resp : Response)
    (ht : URLSearchParams.get (URLSearchParams queryString) "search-term" = some t)
    (hne : t ≠ "")
    (hresp : getData (endpoint (extractQuery queryString w).search) = some resp) :
    search getData queryString w =
      if resp.results.length = 0 then
        (.fulfilled,
          { storeResponse resp (searchData getData (extractQuery queryString w)).2 with
            console := w.console ++ [queryString, "No result"] })
      else
        (.fulfilled,
          { displaySearchResults resp.results
              (storeResponse resp (searchData getData (extractQuery queryString w)).2) with
            dom := { (displaySearchResults resp.results
              (storeResponse resp (searchData getData (extractQuery queryString w)).2)).dom with
              searchTermValue := "" } }) := by
  have hterm : (extractQuery queryString w).search.term = some t := by
    simp [extractQuery, ht]
  have hcond : (extractQuery queryString w).search.term ≠ some "" ∧
      (extractQuery queryString w).search.term ≠ none := by
    rw [hterm]; simp [hne]
  unfold search
  simp only [if_pos hcond]
  simp only [searchData, callGetData, hresp]
  split_ifs
  · simp [storeResponse, extractQuery]
  · rfl

/-- What `search` does when the term is empty or missing. -/
theorem search_unanswerable (getData : String → Option Response) (queryString : String)
    (w : World)
    (h : URLSearchParams.get (URLSearchParams queryString) "search-term" = some "" ∨
         URLSearchParams.get (URLSearchParams queryString) "search-term" = none) :
    search getData queryString w =
      (.fulfilled,
        { extractQuery queryString w with
          console := w.console ++ [queryString, "Please enter search term!"] }) := by
  have hcond : ¬ ((extractQuery queryString w).search.term ≠ some "" ∧
      (extractQuery queryString w).search.term ≠ none) := by
    rcases h with h | h <;> simp [extractQuery, h]
  unfold search
  simp only [if_neg hcond]
  simp [extractQuery]

/-- C4: when the `search-term` parameter of the query string is empty or
absent, `search` is fulfilled (no error), calls `getData` not at all and leaves
`#search-results`, `#search-results-heading`, `#pagination` and the input
`#search-term` as they were. -/
theorem search_without_term_is_noop (getData : String → Option Response)
    (queryString : String) (w : World)
    (h : URLSearchParams.get (URLSearchParams queryString) "search-term" = some "" ∨
         URLSearchParams.get (URLSearchParams queryString) "search-term" = none) :
    (search getData queryString w).1 = .fulfilled ∧
    (search getData queryString w).2.fetched = w.fetched ∧
    (search getData queryString w).2.dom.searchResults = w.dom.searchResults ∧
    (search getData queryString w).2.dom.heading = w.dom.heading ∧
    (search getData queryString w).2.dom.pagination = w.dom.pagination ∧
    (search getData queryString w).2.dom.searchTermValue = w.dom.searchTermValue := by
  rw [search_unanswerable getData queryString w h]
  simp [extractQuery]

/-- C4 at the query strings `?type=movie&search-term=` and `?type=movie`. -/
theorem search_without_term_is_noop_witness :
    (URLSearchParams.get (URLSearchParams "?type=movie&search-term=") "search-term" = some "" ∧
      (search firstOfTwo "?type=movie&search-term=" renderedWorld).2.fetched
        = renderedWorld.fetched ∧
      (search firstOfTwo "?type=movie&search-term=" renderedWorld).2.dom.pagination
        = renderedWorld.dom.pagination) ∧
    (URLSearchParams.get (URLSearchParams "?type=movie") "search-term" = none ∧
      (search firstOfTwo "?type=movie" renderedWorld).1 = .fulfilled) := by
  have h1 : URLSearchParams.get (URLSearchParams "?type=movie&search-term=") "search-term"
      = some "" := by decide
  have h2 : URLSearchParams.get (URLSearchParams "?type=movie") "search-term" = none := by
    decide
  have a := search_without_term_is_noop firstOfTwo "?type=movie&search-term=" renderedWorld
    (Or.inl h1)
  have b := search_without_term_is_noop firstOfTwo "?type=movie" renderedWorld (Or.inr h2)
  exact ⟨⟨h1, a.2.1, a.2.2.2.2.1⟩, h2, b.1⟩

/-- C5, as stated, fails for the click listeners: from page 1 of 2 with 21
results, a Next click (and likewise a Prev click) answered with `total_pages = 5`
and `total_results = 90` is fulfilled and leaves `totalPages = 2` and
`totalResults = 21`. -/
theorem listeners_keep_old_totals :
    (otherTotals (endpoint { renderedWorld.search with page := 2 })).map
        (fun resp => (resp.total_pages, resp.total_results)) = some (5, 90) ∧
    (nextHandler otherTotals renderedWorld).1 = .fulfilled ∧
    (nextHandler otherTotals renderedWorld).2.search.totalPages = 2 ∧
    (nextHandler otherTotals renderedWorld).2.search.totalResults = 21 ∧
    (prevHandler otherTotals renderedWorld).1 = .fulfilled ∧
    (prevHandler otherTotals renderedWorld).2.search.totalPages = 2 ∧
    (prevHandler otherTotals renderedWorld).2.search.totalResults = 21 := by
  refine ⟨rfl, rfl, ?_, ?_, rfl, ?_, ?_⟩ <;>
    simp only [nextHandler_search, prevHandler_search] <;> decide

/-- C5, amended: when the initial `search` flow issues its query and the
request is answered, `search` is fulfilled and afterwards `totalPages` and
`totalResults` (and `page`) of the state equal `total_pages` and
`total_results` (and `page`) of the response. -/
theorem search_stores_totals (getData : String → Option Response) (queryString : String)
    (w : World) (t : String) (resp : Response)
    (ht : URLSearchParams.get (URLSearchParams queryString) "search-term" = some t)
    (hne : t ≠ "")
    (hresp : getData (endpoint (extractQuery queryString w).search) = some resp) :
    (search getData queryString w).1 = .fulfilled ∧
    (search getData queryString w).2.search.totalPages = resp.total_pages ∧
    (search getData queryString w).2.search.totalResults = resp.total_results ∧
    (search getData queryString w).2.search.page = resp.page := by
  rw [search_answered getData queryString w t resp ht hne hresp]
  split_ifs <;> simp [storeResponse, displaySearchResults_search]

/-- C5 amended, at the query string `?type=movie&search-term=heat`. -/
theorem search_stores_totals_witness :
    URLSearchParams.get (URLSearchParams "?type=movie&search-term=heat") "search-term"
      = some "heat" ∧
    (search otherTotals "?type=movie&search-term=heat" sampleWorld).2.search.totalPages = 5 ∧
    (search otherTotals "?type=movie&search-term=heat" sampleWorld).2.search.totalResults = 90 :=
  have h := search_stores_totals otherTotals "?type=movie&search-term=heat" sampleWorld "heat"
    { results := [sampleItem], page := 2, total_pages := 5, total_results := 90 }
    (by decide) (by decide) rfl
  ⟨by decide, h.2.1, h.2.2.1⟩

set_option maxRecDepth 100000 in
/-- C7, as stated, fails for the click listeners: on the rendered first page a
Next click answered with an empty `results` array is fulfilled, empties
`#search-results` and `#search-results-heading` and replaces the pagination
block. -/
theorem next_click_renders_empty_page :
    renderedWorld.dom.searchResults ≠ [] ∧
    renderedWorld.dom.heading ≠ "" ∧
    clickCompletion renderedWorld (.next 0 emptyPage) = .fulfilled ∧
    (click renderedWorld (.next 0 emptyPage)).dom.searchResults = [] ∧
    (click renderedWorld (.next 0 emptyPage)).dom.heading = "" ∧
    (click renderedWorld (.next 0 emptyPage)).dom.pagination ≠ renderedWorld.dom.pagination := by
  decide

/-- C7, amended: when the response to the initial `search` flow has an empty
`results` array, `search` logs `No result` and returns; `#search-results`,
`#search-results-heading` and `#pagination` (and the input) keep their content. -/
theorem search_empty_results_keeps_dom (getData : String → Option Response)
    (queryString : String) (w : World) (t : String) (resp : Response)
    (ht : URLSearchParams.get (URLSearchParams queryString) "search-term" = some t)
    (hne : t ≠ "")
    (hresp : getData (endpoint (extractQuery queryString w).search) = some resp)
    (hempty : resp.results = []) :
    (search getData queryString w).1 = .fulfilled ∧
    (search getData queryString w).2.dom.searchResults = w.dom.searchResults ∧
    (search getData queryString w).2.dom.heading = w.dom.heading ∧
    (search getData queryString w).2.dom.pagination = w.dom.pagination ∧
    (search getData queryString w).2.dom.searchTermValue = w.dom.searchTermValue ∧
    (search getData queryString w).2.console = w.console ++ [queryString, "No result"] := by
  rw [search_answered getData queryString w t resp ht hne hresp]
  simp [hempty, storeResponse, searchData, callGetData, extractQuery]

/-- C7 amended, on the rendered first page with an empty answer. -/
theorem search_empty_results_keeps_dom_witness :
    (search emptyPage "?type=movie&search-term=heat" renderedWorld).2.dom.searchResults
      = renderedWorld.dom.searchResults ∧
    (search emptyPage "?type=movie&search-term=heat" renderedWorld).2.dom.heading
      = renderedWorld.dom.heading ∧
    (search emptyPage "?type=movie&search-term=heat" renderedWorld).2.dom.pagination
      = renderedWorld.dom.pagination :=
  have h := search_empty_results_keeps_dom emptyPage "?type=movie&search-term=heat"
    renderedWorld "heat"
    { results := [], page := 2, total_pages := 5, total_results := 90 }
    (by decide) (by decide) rfl rfl
  ⟨h.2.1, h.2.2.1, h.2.2.2.1⟩

/-! ## The pagination state machine -/

/-- After `displaySearchResults` the only buttons in the document are guarded,
provided the page is in range. -/
theorem displaySearchResults_guarded (results : List ResultItem) (w : World)
    (h : PageInRange w) : ControlsGuarded (displaySearchResults results w) := by
  intro p hp
  rw [displaySearchResults_pagination] at hp
  rw [displaySearchResults_search]
  obtain ⟨h1, h2⟩ := h
  simp only [List.mem_singleton] at hp
  subst hp
  constructor
  · intro hn
    simp only [decide_eq_false_iff_not] at hn
    omega
  · intro hn
    simp only [decide_eq_false_iff_not] at hn
    omega

/-- A fulfilled click keeps the page in range and the buttons guarded. -/
theorem click_preserves (w : World) (c : Click)
    (hin : PageInRange w) (hg : ControlsGuarded w)
    (hok : clickCompletion w c = .fulfilled) :
    PageInRange (click w c) ∧ ControlsGuarded (click w c) := by
  cases c with
  | next i getData =>
    simp only [click, clickCompletion, dispatchClick] at hok ⊢
    cases hget : w.dom.pagination.get? i with
    | none => simpa [hget] using ⟨hin, hg⟩
    | some p =>
      simp only [hget] at hok ⊢
      cases hd : p.nextDisabled with
      | true => simpa [hd] using ⟨hin, hg⟩
      | false =>
        simp only [hd, Bool.false_eq_true, if_false] at hok ⊢
        have hlt := (hg p (List.get?_mem hget)).1 hd
        have hin2 : PageInRange
            { w with search := { w.search with page := w.search.page + 1 } } := by
          obtain ⟨h1, h2⟩ := hin
          constructor <;> simp only <;> omega
        unfold nextHandler at hok ⊢
        cases hr : getData (endpoint { w.search with page := w.search.page + 1 }) with
        | none => simp [searchData, callGetData, hr] at hok
        | some resp =>
          simp only [searchData, callGetData, hr]
          constructor
          · simpa [PageInRange, smoothscroll, displaySearchResults_search] using hin2
          · have := displaySearchResults_guarded resp.results
              { w with search := { w.search with page := w.search.page + 1 },
                       fetched := w.fetched ++
                         [endpoint { w.search with page := w.search.page + 1 }] } hin2
            simpa [ControlsGuarded, smoothscroll] using this
  | prev i getData =>
    simp only [click, clickCompletion, dispatchClick] at hok ⊢
    cases hget : w.dom.pagination.get? i with
    | none => simpa [hget] using ⟨hin, hg⟩
    | some p =>
      simp only [hget] at hok ⊢
      cases hd : p.prevDisabled with
      | true => simpa [hd] using ⟨hin, hg⟩
      | false =>
        simp only [hd, Bool.false_eq_true, if_false] at hok ⊢
        have hlt := (hg p (List.get?_mem hget)).2 hd
        have hin2 : PageInRange
            { w with search := { w.search with page := w.search.page - 1 } } := by
          obtain ⟨h1, h2⟩ := hin
          constructor <;> simp only <;> omega
        unfold prevHandler at hok ⊢
        cases hr : getData (endpoint { w.search with page := w.search.page - 1 }) with
        | none => simp [searchData, callGetData, hr] at hok
        | some resp =>
          simp only [searchData, callGetData, hr]
          constructor
          · simpa [PageInRange, smoothscroll, displaySearchResults_search] using hin2
          · have := displaySearchResults_guarded resp.results
              { w with search := { w.search with page := w.search.page - 1 },
                       fetched := w.fetched ++
                         [endpoint { w.search with page := w.search.page - 1 }] } hin2
            simpa [ControlsGuarded, smoothscroll] using this

/-- Fulfilled clicks keep the page in range and the buttons guarded. -/
theorem clicks_preserve (cs : List Click) (w : World)
    (hin : PageInRange w) (hg : ControlsGuarded w) (hok : allFulfilled w cs) :
    PageInRange (clicks w cs) ∧ ControlsGuarded (clicks w cs) := by
  induction cs generalizing w with
  | nil => exact ⟨hin, hg⟩
  | cons c cs ih =>
    obtain ⟨h1, h2⟩ := hok
    obtain ⟨a, b⟩ := click_preserves w c hin hg h1
    exact ih (click w c) a b h2

/-- An answered `search` whose response has its page inside its page count
establishes the range and guards the buttons it renders. -/
theorem search_establishes (getData : String → Option Response) (queryString : String)
    (w : World) (t : String) (resp : Response)
    (ht : URLSearchParams.get (URLSearchParams queryString) "search-term" = some t)
    (hne : t ≠ "")
    (hresp : getData (endpoint (extractQuery queryString w).search) = some resp)
    (hwf : 1 ≤ resp.page ∧ resp.page ≤ resp.total_pages)
    (hdom : resp.results ≠ [] ∨ w.dom.pagination = []) :
    PageInRange (search getData queryString w).2 ∧
    ControlsGuarded (search getData queryString w).2 := by
  have hin : PageInRange
      (storeResponse resp (searchData getData (extractQuery queryString w)).2) := by
    simpa [PageInRange, storeResponse] using hwf
  rw [search_answered getData queryString w t resp ht hne hresp]
  split_ifs with hlen
  · have hnil : resp.results = [] := List.length_eq_zero.mp hlen
    have hpag : w.dom.pagination = [] := by
      rcases hdom with h | h
      · exact absurd hnil h
      · exact h
    refine ⟨by simpa [PageInRange, storeResponse] using hwf, ?_⟩
    intro p hp
    simp [storeResponse, searchData, callGetData, extractQuery, hpag] at hp
  · refine ⟨by simpa [PageInRange, displaySearchResults_search] using hin, ?_⟩
    have := displaySearchResults_guarded resp.results _ hin
    simpa [ControlsGuarded] using this

set_option maxRecDepth 100000 in
/-- C1, as stated, fails in two ways. After a successful first query that
rendered page 1 of 2, two Next clicks whose requests are rejected leave
`page = 3` with `totalPages = 2`: the listener increments `page` before the
request and the button is not re-rendered. And a successful first query whose
response carries `page = 3`, `total_pages = 2` is stored as it is. -/
theorem page_can_leave_range :
    (renderedWorld.search.page = 1 ∧ renderedWorld.search.totalPages = 2 ∧
      (clicks renderedWorld [.next 0 offline, .next 0 offline]).search.page = 3 ∧
      (clicks renderedWorld [.next 0 offline, .next 0 offline]).search.totalPages = 2) ∧
    ((search pastTheEnd "?type=movie&search-term=heat" sampleWorld).1 = .fulfilled ∧
      (search pastTheEnd "?type=movie&search-term=heat" sampleWorld).2.search.page = 3 ∧
      (search pastTheEnd "?type=movie&search-term=heat" sampleWorld).2.search.totalPages = 2) := by
  decide

/-- C1, amended: let the initial `search` flow issue its query and be answered
with a response whose `page` lies in `[1, total_pages]`, the pagination
container holding no older buttons unless the response is rendered. Then after
any sequence of Next and Prev clicks on the buttons in the document, each
listener running to fulfilment before the next click, `1 ≤ page ≤ totalPages`. -/
theorem page_in_range_after_clicks (getData : String → Option Response)
    (queryString : String) (w : World) (t : String) (resp : Response)
    (ht : URLSearchParams.get (URLSearchParams queryString) "search-term" = some t)
    (hne : t ≠ "")
    (hresp : getData (endpoint (extractQuery queryString w).search) = some resp)
    (hwf : 1 ≤ resp.page ∧ resp.page ≤ resp.total_pages)
    (hdom : resp.results ≠ [] ∨ w.dom.pagination = [])
    (cs : List Click)
    (hok : allFulfilled (search getData queryString w).2 cs) :
    1 ≤ (clicks (search getData queryString w).2 cs).search.page ∧
    (clicks (search getData queryString w).2 cs).search.page
      ≤ (clicks (search getData queryString w).2 cs).search.totalPages := by
  obtain ⟨hin, hg⟩ :=
    search_establishes getData queryString w t resp ht hne hresp hwf hdom
  exact (clicks_preserve cs _ hin hg hok).1

set_option maxRecDepth 100000 in
/-- C1 amended, for the first page of two followed by Next, Next, Prev (the
second Next hits the disabled button). -/
theorem page_in_range_after_clicks_witness :
    (clicks (search firstOfTwo "?type=movie&search-term=heat" sampleWorld).2
        [.next 0 otherTotals, .next 0 firstOfTwo, .prev 0 emptyPage]).search.page = 1 ∧
    1 ≤ (clicks (search firstOfTwo "?type=movie&search-term=heat" sampleWorld).2
        [.next 0 otherTotals, .next 0 firstOfTwo, .prev 0 emptyPage]).search.page ∧
    (clicks (search firstOfTwo "?type=movie&search-term=heat" sampleWorld).2
        [.next 0 otherTotals, .next 0 firstOfTwo, .prev 0 emptyPage]).search.page
      ≤ (clicks (search firstOfTwo "?type=movie&search-term=heat" sampleWorld).2
        [.next 0 otherTotals, .next 0 firstOfTwo, .prev 0 emptyPage]).search.totalPages :=
  ⟨by decide,
    page_in_range_after_clicks firstOfTwo "?type=movie&search-term=heat" sampleWorld "heat"
      { results := [sampleItem], page := 1, total_pages := 2, total_results := 21 }
      (by decide) (by decide) rfl (by decide) (Or.inl (by decide))
      [.next 0 otherTotals, .next 0 firstOfTwo, .prev 0 emptyPage]
      ⟨by decide, by decide, by decide, trivial⟩⟩

/-! ## `URLSearchParams` on plain text -/

theorem utf8Step_init (b : Nat) : utf8Step Utf8State.init b = utf8Start b := by
  simp [utf8Step, Utf8State.init]

theorem char_toNat_valid (c : Char) :
    c.toNat < 0xD800 ∨ (0xDFFF < c.toNat ∧ c.toNat < 0x110000) := by
  have h := c.valid
  simp only [UInt32.isValidChar, Nat.isValidChar] at h
  exact h

theorem utf8Start_two (b : Nat) (h1 : 0xC2 ≤ b) (h2 : b ≤ 0xDF) :
    utf8Start b = ([], { cp := b % 32, needed := 1, seen := 0, lower := 0x80, upper := 0xBF }) := by
  unfold utf8Start
  rw [if_neg (by omega), if_pos ⟨h1, h2⟩]

theorem utf8Start_three (b : Nat) (h1 : 0xE0 ≤ b) (h2 : b ≤ 0xEF) :
    utf8Start b = ([], { cp := b % 16, needed := 2, seen := 0,
                         lower := if b = 0xE0 then 0xA0 else 0x80,
                         upper := if b = 0xED then 0x9F else 0xBF }) := by
  unfold utf8Start
  rw [if_neg (by omega), if_neg (by omega), if_pos ⟨h1, h2⟩]

theorem utf8Start_four (b : Nat) (h1 : 0xF0 ≤ b) (h2 : b ≤ 0xF4) :
    utf8Start b = ([], { cp := b % 8, needed := 3, seen := 0,
                         lower := if b = 0xF0 then 0x90 else 0x80,
                         upper := if b = 0xF4 then 0x8F else 0xBF }) := by
  unfold utf8Start
  rw [if_neg (by omega), if_neg (by omega), if_neg (by omega), if_pos ⟨h1, h2⟩]

/-- A continuation byte that completes the open sequence. -/
theorem utf8Step_last (st : Utf8State) (b : Nat) (hn : st.needed ≠ 0)
    (hl : st.lower ≤ b) (hu : b ≤ st.upper) (hs : st.seen + 1 = st.needed) :
    utf8Step st b = ([Char.ofNat (st.cp * 64 + b % 64)], Utf8State.init) := by
  unfold utf8Step
  rw [if_neg hn, if_neg (by omega), if_pos hs]

/-- A continuation byte that leaves the sequence open. -/
theorem utf8Step_more (st : Utf8State) (b : Nat) (hn : st.needed ≠ 0)
    (hl : st.lower ≤ b) (hu : b ≤ st.upper) (hs : st.seen + 1 ≠ st.needed) :
    utf8Step st b = ([], { cp := st.cp * 64 + b % 64, needed := st.needed, seen := st.seen + 1,
                           lower := 0x80, upper := 0xBF }) := by
  unfold utf8Step
  rw [if_neg hn, if_neg (by omega), if_neg hs]

/-- Decoding undoes the encoding of one character. -/
theorem utf8Decode_encode_char (c : Char) (rest : List Nat) :
    utf8DecodeFrom Utf8State.init (utf8Encode c.toNat ++ rest) =
      c :: utf8DecodeFrom Utf8State.init rest := by
  have hv := char_toNat_valid c
  have hc : Char.ofNat c.toNat = c := Char.ofNat_toNat c
  generalize c.toNat = n at hv hc
  unfold utf8Encode
  split_ifs with h1 h2 h3
  · have : n ≤ 0x7F := by omega
    simp [utf8DecodeFrom, utf8Step_init, utf8Start, this, hc]
  · simp only [List.cons_append, List.nil_append, utf8DecodeFrom, utf8Step_init]
    rw [utf8Start_two _ (by omega) (by omega)]
    rw [utf8Step_last _ _ (by simp) (by simp) (by simp; omega) (by simp)]
    have : (0xC0 + n / 64) % 32 * 64 + (0x80 + n % 64) % 64 = n := by omega
    dsimp only
    rw [this, hc]
    rfl
  · simp only [List.cons_append, List.nil_append, utf8DecodeFrom, utf8Step_init]
    rw [utf8Start_three _ (by omega) (by omega)]
    rw [utf8Step_more _ _ (by simp) (by simp; split_ifs <;> omega)
      (by simp; split_ifs <;> omega) (by simp)]
    rw [utf8Step_last _ _ (by simp) (by simp) (by simp; omega) (by simp)]
    have : ((0xE0 + n / 4096) % 16 * 64 + (0x80 + n / 64 % 64) % 64) * 64
        + (0x80 + n % 64) % 64 = n := by omega
    dsimp only
    rw [this, hc]
    rfl
  · simp only [List.cons_append, List.nil_append, utf8DecodeFrom, utf8Step_init]
    rw [utf8Start_four _ (by omega) (by omega)]
    rw [utf8Step_more _ _ (by simp) (by simp; split_ifs <;> omega)
      (by simp; split_ifs <;> omega) (by simp)]
    rw [utf8Step_more _ _ (by simp) (by simp) (by simp; omega) (by simp)]
    rw [utf8Step_last _ _ (by simp) (by simp) (by simp; omega) (by simp)]
    have : (((0xF0 + n / 262144) % 8 * 64 + (0x80 + n / 4096 % 64) % 64) * 64
        + (0x80 + n / 64 % 64) % 64) * 64 + (0x80 + n % 64) % 64 = n := by omega
    dsimp only
    rw [this, hc]
    rfl

/-- Decoding undoes the encoding of a text. -/
theorem utf8Decode_encodeAll (cs : List Char) : utf8Decode (utf8EncodeAll cs) = cs := by
  unfold utf8Decode
  induction cs with
  | nil => simp [utf8EncodeAll, utf8DecodeFrom, Utf8State.init]
  | cons c cs ih => rw [utf8EncodeAll, utf8Decode_encode_char, ih]

/-- An ASCII byte in the encoding of a character is that character. -/
theorem mem_utf8Encode_ascii (n b : Nat) (hb : b ∈ utf8Encode n) (hlt : b < 0x80) : n = b := by
  unfold utf8Encode at hb
  split_ifs at hb <;> simp at hb <;> omega

/-- An ASCII byte occurs in the encoding of a text only if its character occurs
in the text. -/
theorem not_mem_utf8EncodeAll (k : Nat) (hk : k < 0x80) (cs : List Char)
    (h : ∀ c ∈ cs, c.toNat ≠ k) : k ∉ utf8EncodeAll cs := by
  induction cs with
  | nil => simp [utf8EncodeAll]
  | cons c cs ih =>
    rw [utf8EncodeAll, List.mem_append, not_or]
    refine ⟨fun hm => h c (List.mem_cons_self _ _) (mem_utf8Encode_ascii _ _ hm hk), ?_⟩
    exact ih (fun d hd => h d (List.mem_cons_of_mem _ hd))

theorem percentDecode_of_not_mem : ∀ l : List Nat, 0x25 ∉ l → percentDecode l = l
  | [], _ => rfl
  | [_], _ => rfl
  | [_, _], _ => rfl
  | b :: x :: y :: rest, hm => by
    have hb : b ≠ 0x25 := fun e => hm (e ▸ List.mem_cons_self _ _)
    rw [percentDecode, if_neg hb,
      percentDecode_of_not_mem (x :: y :: rest) (fun h => hm (List.mem_cons_of_mem _ h))]

theorem map_plus_of_not_mem (l : List Nat) (h : 0x2B ∉ l) :
    l.map (fun b => if b = 0x2B then 0x20 else b) = l := by
  induction l with
  | nil => rfl
  | cons b bs ih =>
    have hb : b ≠ 0x2B := fun e => h (e ▸ List.mem_cons_self _ _)
    simp only [List.map_cons, if_neg hb, ih (fun hm => h (List.mem_cons_of_mem _ hm))]

/-- A text without `+` and `%` is decoded to itself. -/
theorem decodeField_encodeAll (cs : List Char)
    (h : ∀ c ∈ cs, c ≠ '+' ∧ c ≠ '%') : decodeField (utf8EncodeAll cs) = String.mk cs := by
  have hplus : 0x2B ∉ utf8EncodeAll cs :=
    not_mem_utf8EncodeAll 0x2B (by decide) cs (fun c hc e =>
      (h c hc).1 (by rw [← Char.ofNat_toNat c, e]))
  have hpct : 0x25 ∉ utf8EncodeAll cs :=
    not_mem_utf8EncodeAll 0x25 (by decide) cs (fun c hc e =>
      (h c hc).2 (by rw [← Char.ofNat_toNat c, e]))
  unfold decodeField
  rw [map_plus_of_not_mem _ hplus, percentDecode_of_not_mem _ hpct, utf8Decode_encodeAll]

theorem splitBytes_ne_nil (sep : Nat) (l : List Nat) : splitBytes sep l ≠ [] := by
  cases l with
  | nil => simp [splitBytes]
  | cons b bs =>
    unfold splitBytes
    split_ifs
    · simp
    · cases splitBytes sep bs <;> simp

theorem splitBytes_of_not_mem (sep : Nat) (l : List Nat) (h : sep ∉ l) :
    splitBytes sep l = [l] := by
  induction l with
  | nil => rfl
  | cons b bs ih =>
    have hb : b ≠ sep := fun e => h (e ▸ List.mem_cons_self _ _)
    rw [splitBytes, if_neg hb, ih (fun hm => h (List.mem_cons_of_mem _ hm))]

theorem utf8EncodeAll_append (a b : List Char) :
    utf8EncodeAll (a ++ b) = utf8EncodeAll a ++ utf8EncodeAll b := by
  induction a with
  | nil => rfl
  | cons c cs ih => simp [utf8EncodeAll, ih]

/-- The parameters of `type=movie&search-term=X` for a text `X` without `&`,
`+` and `%`. -/
theorem parseUrlencoded_movie (cs : List Char)
    (h : ∀ c ∈ cs, c ≠ '&' ∧ c ≠ '+' ∧ c ≠ '%') :
    parseUrlencoded (utf8EncodeAll ("type=movie&search-term=".toList ++ cs)) =
      [("type", "movie"), ("search-term", String.mk cs)] := by
  have hamp : 0x26 ∉ utf8EncodeAll cs :=
    not_mem_utf8EncodeAll 0x26 (by decide) cs (fun c hc e =>
      (h c hc).1 (by rw [← Char.ofNat_toNat c, e]))
  have hdec := decodeField_encodeAll cs (fun c hc => (h c hc).2)
  rw [utf8EncodeAll_append]
  have hlit : utf8EncodeAll "type=movie&search-term=".toList =
      [116, 121, 112, 101, 61, 109, 111, 118, 105, 101, 38,
       115, 101, 97, 114, 99, 104, 45, 116, 101, 114, 109, 61] := by decide
  rw [hlit]
  have hsplit : splitBytes 0x26 ([116, 121, 112, 101, 61, 109, 111, 118, 105, 101, 38,
       115, 101, 97, 114, 99, 104, 45, 116, 101, 114, 109, 61] ++ utf8EncodeAll cs) =
      [[116, 121, 112, 101, 61, 109, 111, 118, 105, 101],
       [115, 101, 97, 114, 99, 104, 45, 116, 101, 114, 109, 61] ++ utf8EncodeAll cs] := by
    simp [splitBytes, splitBytes_of_not_mem _ _ hamp]
  have h1 : decodeField [116, 121, 112, 101] = "type" := by decide
  have h2 : decodeField [109, 111, 118, 105, 101] = "movie" := by decide
  have h3 : decodeField [115, 101, 97, 114, 99, 104, 45, 116, 101, 114, 109] = "search-term" := by
    decide
  unfold parseUrlencoded
  rw [hsplit]
  simp [splitNameValue, h1, h2, h3, hdec]

theorem splitBytes_append_sep (sep : Nat) (a b : List Nat) :
    splitBytes sep (a ++ sep :: b) = splitBytes sep a ++ splitBytes sep b := by
  induction a with
  | nil => simp [splitBytes]
  | cons x xs ih =>
    by_cases hx : x = sep
    · simp [splitBytes, hx, ih]
    · cases hs : splitBytes sep xs with
      | nil => exact absurd hs (splitBytes_ne_nil sep xs)
      | cons y ys =>
        rw [hs] at ih
        rw [List.cons_append, splitBytes, if_neg hx, ih, splitBytes, if_neg hx, hs]
        rfl

/-- Parsing distributes over `&`. -/
theorem parseUrlencoded_append_amp (a b : List Nat) :
    parseUrlencoded (a ++ 0x26 :: b) = parseUrlencoded a ++ parseUrlencoded b := by
  simp [parseUrlencoded, splitBytes_append_sep]

theorem parseUrlencoded_nil : parseUrlencoded [] = [] := by
  decide

/-- The parameters of a query string in which `type=movie&search-term=X` stands
between complete parameters. -/
theorem parseUrlencoded_around_movie (pre post cs : List Char)
    (h : ∀ c ∈ cs, c ≠ '&' ∧ c ≠ '+' ∧ c ≠ '%')
    (hpre : pre = [] ∨ ∃ p, pre = p ++ ['&'])
    (hpost : post = [] ∨ ∃ q, post = '&' :: q) :
    ∃ Q, parseUrlencoded
        (utf8EncodeAll (pre ++ ("type=movie&search-term=".toList ++ (cs ++ post)))) =
      parseUrlencoded (utf8EncodeAll pre) ++
        ([("type", "movie"), ("search-term", String.mk cs)] ++ Q) := by
  have hcore := parseUrlencoded_movie cs h
  have hmid : ∃ Q, parseUrlencoded
      (utf8EncodeAll ("type=movie&search-term=".toList ++ (cs ++ post))) =
        [("type", "movie"), ("search-term", String.mk cs)] ++ Q := by
    rcases hpost with hq | ⟨q, hq⟩
    · exact ⟨[], by simpa [hq] using hcore⟩
    · refine ⟨parseUrlencoded (utf8EncodeAll q), ?_⟩
      have e : utf8EncodeAll ("type=movie&search-term=".toList ++ (cs ++ post)) =
          utf8EncodeAll ("type=movie&search-term=".toList ++ cs) ++ 0x26 :: utf8EncodeAll q := by
        rw [hq, ← List.append_assoc, utf8EncodeAll_append _ ('&' :: q)]
        rfl
      rw [e, parseUrlencoded_append_amp, hcore]
  obtain ⟨Q, hQ⟩ := hmid
  refine ⟨Q, ?_⟩
  rcases hpre with hp | ⟨p, hp⟩
  · simpa [hp, utf8EncodeAll, parseUrlencoded_nil] using hQ
  · have e1 : utf8EncodeAll pre = utf8EncodeAll p ++ 0x26 :: [] := by
      rw [hp, utf8EncodeAll_append]
      rfl
    have e2 : utf8EncodeAll (pre ++ ("type=movie&search-term=".toList ++ (cs ++ post))) =
        utf8EncodeAll p ++ 0x26 ::
          utf8EncodeAll ("type=movie&search-term=".toList ++ (cs ++ post)) := by
      rw [hp, List.append_assoc, utf8EncodeAll_append p]
      rfl
    rw [e1, e2, parseUrlencoded_append_amp, parseUrlencoded_append_amp, hQ, parseUrlencoded_nil,
      List.append_nil]

theorem get_append_of_none (P Q : List (String × String)) (name : String)
    (h : URLSearchParams.get P name = none) :
    URLSearchParams.get (P ++ Q) name = URLSearchParams.get Q name := by
  unfold URLSearchParams.get at h ⊢
  rw [Option.map_eq_none'] at h
  rw [List.find?_append, h]
  rfl

/-- `search` writes `type` and `term` only in its first step. -/
theorem search_type_term (getData : String → Option Response) (queryString : String)
    (w : World) :
    (search getData queryString w).2.search.type = (extractQuery queryString w).search.type ∧
    (search getData queryString w).2.search.term = (extractQuery queryString w).search.term := by
  by_cases hc : (extractQuery queryString w).search.term ≠ some "" ∧
      (extractQuery queryString w).search.term ≠ none
  · unfold search
    simp only [if_pos hc]
    cases hr : getData (endpoint (extractQuery queryString w).search) with
    | none => simp [searchData, callGetData, hr]
    | some resp =>
      simp only [searchData, callGetData, hr]
      by_cases hl : resp.results.length = 0
      · simp only [if_pos hl]
        simp [storeResponse]
      · simp only [if_neg hl]
        simp [storeResponse, displaySearchResults_search]
  · unfold search
    simp only [if_neg hc]
    simp

theorem get_movie_pairs (X : String) (Q : List (String × String)) :
    URLSearchParams.get ([("type", "movie"), ("search-term", X)] ++ Q) "type" = some "movie" ∧
    URLSearchParams.get ([("type", "movie"), ("search-term", X)] ++ Q) "search-term" = some X := by
  have e1 : (("type" : String) == "type") = true := by decide
  have e2 : (("type" : String) == "search-term") = false := by decide
  have e3 : (("search-term" : String) == "search-term") = true := by decide
  constructor
  · simp only [URLSearchParams.get, List.cons_append, List.find?, e1, Option.map]
  · simp only [URLSearchParams.get, List.cons_append, List.find?, e2, e3, Option.map]

/-- The two parameters read from a query string in which
`type=movie&search-term=X` stands between complete parameters, none of the
earlier ones being named `type` or `search-term`. -/
theorem URLSearchParams_around_movie (X pre post : String)
    (h : ∀ c ∈ X.toList, c ≠ '&' ∧ c ≠ '+' ∧ c ≠ '%')
    (hpre : pre = "" ∨ ∃ p : String, pre = p ++ "&")
    (hpost : post = "" ∨ ∃ q : String, post = "&" ++ q)
    (hfree : URLSearchParams.get (parseUrlencoded (utf8EncodeAll pre.toList)) "type" = none ∧
      URLSearchParams.get (parseUrlencoded (utf8EncodeAll pre.toList)) "search-term" = none) :
    URLSearchParams.get
        (URLSearchParams ("?" ++ pre ++ "type=movie&search-term=" ++ X ++ post)) "type"
      = some "movie" ∧
    URLSearchParams.get
        (URLSearchParams ("?" ++ pre ++ "type=movie&search-term=" ++ X ++ post)) "search-term"
      = some X := by
  have e : ("?" ++ pre ++ "type=movie&search-term=" ++ X ++ post).toList =
      '?' :: (pre.toList ++ ("type=movie&search-term=".toList ++ (X.toList ++ post.toList))) := by
    simp [String.toList]
  have hpre2 : pre.toList = [] ∨ ∃ p, pre.toList = p ++ ['&'] := by
    rcases hpre with hp | ⟨p, hp⟩
    · left; rw [hp]; rfl
    · right; exact ⟨p.toList, by rw [hp]; simp [String.toList]⟩
  have hpost2 : post.toList = [] ∨ ∃ q, post.toList = '&' :: q := by
    rcases hpost with hq | ⟨q, hq⟩
    · left; rw [hq]; rfl
    · right; exact ⟨q.toList, by rw [hq]; simp [String.toList]⟩
  obtain ⟨Q, hQ⟩ := parseUrlencoded_around_movie pre.toList post.toList X.toList h hpre2 hpost2
  unfold URLSearchParams
  rw [e]
  simp only
  rw [hQ, get_append_of_none _ _ _ hfree.1, get_append_of_none _ _ _ hfree.2]
  exact get_movie_pairs X Q

/-- C9, as stated, fails: `URLSearchParams` decodes what it reads. For
`X = a+b` the term becomes `a b`, for `X = R&B` it becomes `R`, for
`X = 100%25` it becomes `100%`; and a query string that contains
`type=movie&search-term=heat` after an earlier `type=tv` yields the type `tv`. -/
theorem extractor_decodes_parameters :
    (extractQuery "?type=movie&search-term=a+b" sampleWorld).search.term = some "a b" ∧
    (extractQuery "?type=movie&search-term=R&B" sampleWorld).search.term = some "R" ∧
    (extractQuery "?type=movie&search-term=100%25" sampleWorld).search.term = some "100%" ∧
    (extractQuery "?type=tv&type=movie&search-term=heat" sampleWorld).search.type = some "tv" := by
  decide

/-- C9, amended: let the term `X` hold none of the characters `&`, `+` and `%`,
and let the query string of the page be `?`, then complete parameters none of
which is named `type` or `search-term` (possibly none at all), then
`type=movie&search-term=X`, then possibly further parameters. Then the first
step of `search` sets `type` to `movie` and `term` to `X`, and they keep these
values until `search` has settled. -/
theorem extractor_sets_type_and_term (X pre post : String)
    (h : ∀ c ∈ X.toList, c ≠ '&' ∧ c ≠ '+' ∧ c ≠ '%')
    (hpre : pre = "" ∨ ∃ p : String, pre = p ++ "&")
    (hpost : post = "" ∨ ∃ q : String, post = "&" ++ q)
    (hfree : URLSearchParams.get (parseUrlencoded (utf8EncodeAll pre.toList)) "type" = none ∧
      URLSearchParams.get (parseUrlencoded (utf8EncodeAll pre.toList)) "search-term" = none)
    (getData : String → Option Response) (w : World) :
    ((extractQuery ("?" ++ pre ++ "type=movie&search-term=" ++ X ++ post) w).search.type
        = some "movie" ∧
      (extractQuery ("?" ++ pre ++ "type=movie&search-term=" ++ X ++ post) w).search.term
        = some X) ∧
    ((search getData ("?" ++ pre ++ "type=movie&search-term=" ++ X ++ post) w).2.search.type
        = some "movie" ∧
      (search getData ("?" ++ pre ++ "type=movie&search-term=" ++ X ++ post) w).2.search.term
        = some X) := by
  obtain ⟨h1, h2⟩ := URLSearchParams_around_movie X pre post h hpre hpost hfree
  have a : (extractQuery ("?" ++ pre ++ "type=movie&search-term=" ++ X ++ post) w).search.type
        = some "movie" ∧
      (extractQuery ("?" ++ pre ++ "type=movie&search-term=" ++ X ++ post) w).search.term
        = some X := by
    simp only [extractQuery]
    exact ⟨h1, h2⟩
  obtain ⟨c1, c2⟩ :=
    search_type_term getData ("?" ++ pre ++ "type=movie&search-term=" ++ X ++ post) w
  exact ⟨a, by rw [c1]; exact a.1, by rw [c2]; exact a.2⟩

/-- C9 amended, at the query strings `?type=movie&search-term=blade runner é`
and `?lang=en&type=movie&search-term=heat&page=2`. -/
theorem extractor_sets_type_and_term_witness :
    ((extractQuery "?type=movie&search-term=blade runner é" sampleWorld).search.type
        = some "movie" ∧
      (extractQuery "?type=movie&search-term=blade runner é" sampleWorld).search.term
        = some "blade runner é") ∧
    ((extractQuery "?lang=en&type=movie&search-term=heat&page=2" sampleWorld).search.type
        = some "movie" ∧
      (extractQuery "?lang=en&type=movie&search-term=heat&page=2" sampleWorld).search.term
        = some "heat") :=
  ⟨(extractor_sets_type_and_term "blade runner é" "" "" (by decide) (Or.inl rfl) (Or.inl rfl)
      (by decide) offline sampleWorld).1,
   (extractor_sets_type_and_term "heat" "lang=en&" "&page=2" (by decide)
      (Or.inr ⟨"lang=en", rfl⟩) (Or.inr ⟨"page=2", rfl⟩) (by decide) offline sampleWorld).1⟩

/-! ## The markup of a card -/

theorem not_prefix_of_clash : ∀ (n t : List Char), clash n t = true →
    ∀ r : List Char, ¬ n <+: (t ++ r)
  | [], _, h => by simp [clash] at h
  | _ :: _, [], h => by simp [clash] at h
  | a :: as, b :: bs, h => by
    intro r hp
    rw [List.cons_append, List.cons_prefix_cons] at hp
    simp only [clash, Bool.or_eq_true, bne_iff_ne, ne_eq] at h
    rcases h with h | h
    · exact h hp.1
    · exact not_prefix_of_clash as bs h r hp.2

theorem not_infix_const_append (n : List Char) :
    ∀ (c r : List Char), blocked n c = true → ¬ n <:+: r → ¬ n <:+: (c ++ r)
  | [], r, _, h => by simpa using h
  | b :: bs, r, hb, h => by
    simp only [blocked, Bool.and_eq_true] at hb
    rw [List.cons_append, List.infix_cons_iff, not_or]
    exact ⟨not_prefix_of_clash n (b :: bs) hb.1 r,
      not_infix_const_append n bs r hb.2 h⟩

theorem not_infix_clean_append (a : Char) (n : List Char) :
    ∀ (v r : List Char), (∀ x ∈ v, x ≠ a) → ¬ (a :: n) <:+: r → ¬ (a :: n) <:+: (v ++ r)
  | [], r, _, h => by simpa using h
  | x :: xs, r, hv, h => by
    rw [List.cons_append, List.infix_cons_iff, not_or]
    refine ⟨fun hp => ?_, not_infix_clean_append a n xs r
      (fun y hy => hv y (List.mem_cons_of_mem _ hy)) h⟩
    rw [List.cons_prefix_cons] at hp
    exact hv x (List.mem_cons_self _ _) hp.1.symm

/-- The characters of a card, piece by piece. -/
theorem cardHtml_toList (s : SearchState) (r : ResultItem) :
    (cardHtml s r).toList =
      "\n      <a href=\"".toList ++ ((strOrNull s.type).toList ++
      ("-details.html?id=".toList ++ (r.id.toStr.toList ++
      ("\">\n        ".toList ++ ((posterHtml r).toList ++
      (ratingOpen.toList ++ (r.rating.toList ++
      (titleOpen.toList ++ ((titleOrName r).toStr.toList ++
      "</h3>\n        </div>\n      </a>\n    ".toList))))))))) := by
  simp only [cardHtml, String.toList, String.data_append, List.append_assoc]

theorem posterHtml_falsy (r : ResultItem) (h : r.poster_path.truthy = false) :
    posterHtml r = placeholderHtml := by
  simp [posterHtml, h, placeholderHtml]

theorem posterHtml_truthy (r : ResultItem) (h : r.poster_path.truthy = true) :
    posterHtml r = "<img src=\"https://image.tmdb.org/t/p/w500" ++ r.poster_path.toStr
      ++ "\" alt=\"" ++ r.title.toStr ++ "\"/>" := by
  simp [posterHtml, h]

/-- The card holds its poster part. -/
theorem posterHtml_occursIn_card (s : SearchState) (r : ResultItem) :
    occursIn (posterHtml r) (cardHtml s r) := by
  unfold occursIn
  rw [cardHtml_toList]
  refine ⟨"\n      <a href=\"".toList ++ ((strOrNull s.type).toList ++
      ("-details.html?id=".toList ++ (r.id.toStr.toList ++ "\">\n        ".toList))),
    ratingOpen.toList ++ (r.rating.toList ++
      (titleOpen.toList ++ ((titleOrName r).toStr.toList ++
      "</h3>\n        </div>\n      </a>\n    ".toList))), ?_⟩
  simp only [List.append_assoc]

theorem titleOrName_markupFree (s : SearchState) (r : ResultItem) (h : plainFields s r) :
    markupFree (titleOrName r).toStr := by
  unfold titleOrName
  split_ifs
  · exact h.2.2.2.1
  · exact h.2.2.2.2.1

/-- A tag that clashes with the constant text of the card template and does not
occur from the poster part on does not occur in the card, when the interpolated
values are free of markup. -/
theorem card_free_of (n : List Char) (s : SearchState) (r : ResultItem)
    (hplain : plainFields s r)
    (h1 : blocked ('<' :: n) "\n      <a href=\"".toList = true)
    (h2 : blocked ('<' :: n) "-details.html?id=".toList = true)
    (h3 : blocked ('<' :: n) "\">\n        ".toList = true)
    (h4 : blocked ('<' :: n) ratingOpen.toList = true)
    (h5 : blocked ('<' :: n) titleOpen.toList = true)
    (h6 : blocked ('<' :: n) "</h3>\n        </div>\n      </a>\n    ".toList = true)
    (hposter : ∀ rest : List Char, ¬ ('<' :: n) <:+: rest →
      ¬ ('<' :: n) <:+: ((posterHtml r).toList ++ rest)) :
    ¬ ('<' :: n) <:+: (cardHtml s r).toList := by
  have hclean : ∀ t : String, markupFree t → ∀ x ∈ t.toList, x ≠ '<' :=
    fun t ht x hx e => ht (e ▸ hx)
  rw [cardHtml_toList]
  apply not_infix_const_append _ _ _ h1
  apply not_infix_clean_append _ _ _ _ (hclean _ hplain.1)
  apply not_infix_const_append _ _ _ h2
  apply not_infix_clean_append _ _ _ _ (hclean _ hplain.2.1)
  apply not_infix_const_append _ _ _ h3
  apply hposter
  apply not_infix_const_append _ _ _ h4
  apply not_infix_clean_append _ _ _ _ (hclean _ hplain.2.2.2.2.2)
  apply not_infix_const_append _ _ _ h5
  apply not_infix_clean_append _ _ _ _ (hclean _ (titleOrName_markupFree s r hplain))
  have := not_infix_const_append ('<' :: n) _ [] h6 (by simp)
  simpa using this

set_option maxRecDepth 100000 in
/-- A card without poster holds no image tag. -/
theorem card_without_img (s : SearchState) (r : ResultItem) (hplain : plainFields s r)
    (h : r.poster_path.truthy = false) : ¬ occursIn "<img" (cardHtml s r) := by
  unfold occursIn
  show ¬ ('<' :: ['i', 'm', 'g']) <:+: (cardHtml s r).toList
  refine card_free_of _ s r hplain (by decide) (by decide) (by decide) (by decide) (by decide)
    (by decide) ?_
  intro rest hrest
  rw [posterHtml_falsy r h]
  exact not_infix_const_append _ _ _ (by decide) hrest

set_option maxRecDepth 100000 in
/-- A card with poster holds no placeholder block. -/
theorem card_without_placeholder (s : SearchState) (r : ResultItem) (hplain : plainFields s r)
    (h : r.poster_path.truthy = true) : ¬ occursIn placeholderHtml (cardHtml s r) := by
  unfold occursIn
  show ¬ ('<' :: "div class=\"no-img\"></div>".toList) <:+: (cardHtml s r).toList
  have hclean : ∀ t : String, markupFree t → ∀ x ∈ t.toList, x ≠ '<' :=
    fun t ht x hx e => ht (e ▸ hx)
  refine card_free_of _ s r hplain (by decide) (by decide) (by decide) (by decide) (by decide)
    (by decide) ?_
  intro rest hrest
  rw [posterHtml_truthy r h]
  simp only [String.toList, String.data_append, List.append_assoc]
  apply not_infix_const_append _ _ _ (by decide)
  apply not_infix_clean_append _ _ _ _ (hclean _ hplain.2.2.1)
  apply not_infix_const_append _ _ _ (by decide)
  apply not_infix_clean_append _ _ _ _ (hclean _ hplain.2.2.2.1)
  exact not_infix_const_append _ _ _ (by decide) hrest

/-- The card holds its title text. -/
theorem title_occursIn_card (s : SearchState) (r : ResultItem) :
    occursIn (titleOrName r).toStr (cardHtml s r) := by
  unfold occursIn
  rw [cardHtml_toList]
  refine ⟨"\n      <a href=\"".toList ++ ((strOrNull s.type).toList ++
      ("-details.html?id=".toList ++ (r.id.toStr.toList ++
      ("\">\n        ".toList ++ ((posterHtml r).toList ++
      (ratingOpen.toList ++ (r.rating.toList ++ titleOpen.toList))))))),
    "</h3>\n        </div>\n      </a>\n    ".toList, ?_⟩
  simp only [List.append_assoc]

theorem sample_plainFields :
    plainFields sampleWorld.search sampleItem ∧ plainFields sampleWorld.search emptyPosterItem := by
  unfold plainFields markupFree
  decide

set_option maxRecDepth 100000 in
/-- C10, as stated, fails in two ways. An item whose `poster_path` is present
but is the empty string gets the placeholder and no image tag, because the
template tests truthiness. And an item without poster whose title is
`<img src=x>` gets a card that does hold an image tag, because the values are
inserted into the markup as they are. -/
theorem poster_slot_tests_truthiness :
    (emptyPosterItem.poster_path = .str "" ∧
      occursIn placeholderHtml (cardHtml sampleWorld.search emptyPosterItem) ∧
      ¬ occursIn "<img" (cardHtml sampleWorld.search emptyPosterItem)) ∧
    (markupTitleItem.poster_path = .null ∧
      occursIn "<img" (cardHtml sampleWorld.search markupTitleItem)) := by
  refine ⟨⟨rfl, ?_, card_without_img _ _ sample_plainFields.2 rfl⟩, rfl, ?_⟩
  · have h := posterHtml_occursIn_card sampleWorld.search emptyPosterItem
    rwa [posterHtml_falsy emptyPosterItem rfl] at h
  · have h := title_occursIn_card sampleWorld.search markupTitleItem
    have e : "<img".toList <:+: (titleOrName markupTitleItem).toStr.toList := by decide
    exact e.trans h

/-- C10, amended: let the values interpolated into the card (type, id,
poster_path, title, name, rating text) hold no `<`. Then the card that
`displaySearchResults` builds for a result item holds the placeholder block
`<div class="no-img"></div>` and no image tag when `poster_path` is falsy
(undefined, null, the empty string), and holds the image tag whose source is
`https://image.tmdb.org/t/p/w500` followed by `poster_path`, and no
placeholder block, when `poster_path` is truthy. -/
theorem card_poster_or_placeholder (w : World) (results : List ResultItem) (r : ResultItem)
    (hr : r ∈ results) (hplain : plainFields w.search r) :
    cardHtml w.search r ∈ (displaySearchResults results w).dom.searchResults ∧
    (r.poster_path.truthy = false →
      occursIn placeholderHtml (cardHtml w.search r) ∧
      ¬ occursIn "<img" (cardHtml w.search r)) ∧
    (r.poster_path.truthy = true →
      occursIn ("<img src=\"https://image.tmdb.org/t/p/w500" ++ r.poster_path.toStr
        ++ "\" alt=\"" ++ r.title.toStr ++ "\"/>") (cardHtml w.search r) ∧
      ¬ occursIn placeholderHtml (cardHtml w.search r)) := by
  refine ⟨?_, fun h => ⟨?_, card_without_img _ _ hplain h⟩,
    fun h => ⟨?_, card_without_placeholder _ _ hplain h⟩⟩
  · rw [displaySearchResults_cards]
    exact List.mem_map_of_mem _ hr
  · have hp := posterHtml_occursIn_card w.search r
    rwa [posterHtml_falsy r h] at hp
  · have hp := posterHtml_occursIn_card w.search r
    rwa [posterHtml_truthy r h] at hp

/-- C10 amended, for a page holding an item with poster `/p.jpg` and an item
whose poster path is empty. -/
theorem card_poster_or_placeholder_witness :
    (occursIn "<img src=\"https://image.tmdb.org/t/p/w500/p.jpg\" alt=\"Heat\"/>"
        (cardHtml sampleWorld.search sampleItem) ∧
      ¬ occursIn placeholderHtml (cardHtml sampleWorld.search sampleItem)) ∧
    (occursIn placeholderHtml (cardHtml sampleWorld.search emptyPosterItem) ∧
      ¬ occursIn "<img" (cardHtml sampleWorld.search emptyPosterItem)) :=
  ⟨(card_poster_or_placeholder sampleWorld [sampleItem, emptyPosterItem] sampleItem
      (by decide) sample_plainFields.1).2.2 rfl,
   (card_poster_or_placeholder sampleWorld [sampleItem, emptyPosterItem] emptyPosterItem
      (by decide) sample_plainFields.2).2.1 rfl⟩

end SearchServices
